import Mathlib

/-
Shallow embedding, over exact rationals, of three freud C++ source files:
  src/cpp/order/CubaticOrderParameter.cc
  src/cpp/locality/AABBQuery.h
  src/cpp/voronoi/VoronoiBuffer.cc
Machine floats are embedded as rationals; the external transcendental
functions (cos, sin, acos, sqrt, exp), the external quaternion rotation
of the vector-math header, and the external Saru random stream (none of
which are under src/) are abstract parameters bundled in an environment.
-/

/-
Batteries marks the arithmetic of Rat irreducible, which blocks the
elaborator from evaluating closed rational terms in the concrete witness
and counterexample theorems below; restore the default reducibility (the
kernel never respected the marking, so proofs are unaffected).
-/
set_option allowUnsafeReducibility true
attribute [semireducible] Rat.add Rat.mul Rat.inv Rat.sub Rat.ofScientific

/-- 3D vector with rational components (embeds vec3\<float\>). -/
structure Vec3 where
  x : ℚ
  y : ℚ
  z : ℚ
deriving DecidableEq, Repr

instance : Inhabited Vec3 := ⟨⟨0, 0, 0⟩⟩

/-- Component of a vector by index: v[0], v[1], v[2]. -/
def vcomp (v : Vec3) : Fin 3 → ℚ
  | 0 => v.x
  | 1 => v.y
  | 2 => v.z

/-- Modelled from the spec: dot product of the external vector-math header
(not under src/). -/
def dot3 (a b : Vec3) : ℚ := a.x * b.x + a.y * b.y + a.z * b.z

/-- Modelled from the spec: cross product of the external vector-math header
(not under src/). -/
def cross3 (a b : Vec3) : Vec3 :=
  ⟨a.y * b.z - a.z * b.y, a.z * b.x - a.x * b.z, a.x * b.y - a.y * b.x⟩

/-- Scalar multiple of a vector. -/
def smul3 (c : ℚ) (v : Vec3) : Vec3 := ⟨c * v.x, c * v.y, c * v.z⟩

/-- Componentwise division of a vector by a scalar (axis /= axis_norm). -/
def divv3 (v : Vec3) (c : ℚ) : Vec3 := ⟨v.x / c, v.y / c, v.z / c⟩

/-- Componentwise sum of two vectors. -/
def addv3 (a b : Vec3) : Vec3 := ⟨a.x + b.x, a.y + b.y, a.z + b.z⟩

/-- Quaternion (embeds quat\<float\>): real part s, imaginary part v. -/
structure Quat where
  s : ℚ
  v : Vec3
deriving DecidableEq, Repr

instance : Inhabited Quat := ⟨⟨1, ⟨0, 0, 0⟩⟩⟩

/-- Modelled from the spec: Hamilton product of the external quaternion
math header (not under src/):
a * b = (a.s b.s - a.v . b.v, a.s b.v + b.s a.v + a.v x b.v). -/
def qmul (a b : Quat) : Quat :=
  ⟨a.s * b.s - dot3 a.v b.v,
   addv3 (addv3 (smul3 a.s b.v) (smul3 b.s a.v)) (cross3 a.v b.v)⟩

/-- Rank-4 tensor: 81 rational components at flat index
n = ((i*3 + j)*3 + k)*3 + l, exactly the cnt order of the C++ loops. -/
abbrev tensor4 := Fin 81 → ℚ

/-- Flat index of the rank-4 tensor: the cnt counter of the nested i,j,k,l
loops equals ((i*3 + j)*3 + k)*3 + l. -/
def t4idx (i j k l : Fin 3) : Fin 81 :=
  ⟨((i.val * 3 + j.val) * 3 + k.val) * 3 + l.val, by
    have hi := i.isLt; have hj := j.isLt; have hk := k.isLt; have hl := l.isLt; omega⟩

/-- First index i of flat position n. -/
def d1 (n : Fin 81) : Fin 3 := ⟨n.val / 27, by have := n.isLt; omega⟩

/-- Second index j of flat position n. -/
def d2 (n : Fin 81) : Fin 3 := ⟨n.val / 9 % 3, by have := n.isLt; omega⟩

/-- Third index k of flat position n. -/
def d3 (n : Fin 81) : Fin 3 := ⟨n.val / 3 % 3, by have := n.isLt; omega⟩

/-- Fourth index l of flat position n. -/
def d4 (n : Fin 81) : Fin 3 := ⟨n.val % 3, by have := n.isLt; omega⟩

/-- tensor4::tensor4() / tensor4::reset() (lines 25-28, 114-117): the zero
tensor. -/
def t4zero : tensor4 := fun _ => 0

/-- tensor4::operator+= on tensors (lines 58-65), componentwise over the 81
entries. -/
def t4add (a b : tensor4) : tensor4 := fun n => a n + b n

/-- tensor4::operator- (lines 76-84), componentwise over the 81 entries. -/
def t4sub (a b : tensor4) : tensor4 := fun n => a n - b n

/-- tensor4::operator* by a scalar (lines 95-103), componentwise. -/
def t4smul (a : tensor4) (b : ℚ) : tensor4 := fun n => a n * b

/-- tensor4::tensor4(vec3\<float\> vector) (lines 29-50): the rank-4 outer
product v (x) v (x) v (x) v; entry cnt = ((i*3+j)*3+k)*3+l holds
v[i]*v[j]*v[k]*v[l]. -/
def tensor4.ofVec (v : Vec3) : tensor4 :=
  fun n => vcomp v (d1 n) * vcomp v (d2 n) * vcomp v (d3 n) * vcomp v (d4 n)

/-- dot(const tensor4 a, const tensor4 b) (lines 119-127): the loop
for i in 0..80, c += a.data[i] * b.data[i]. -/
def dot (a b : tensor4) : ℚ :=
  (List.finRange 81).foldl (fun c i => c + a i * b i) 0

/-- The 3x3 identity matrix used to build the delta functions
(lines 133-136). -/
def identity : Fin 3 → Fin 3 → ℚ := fun i j => if i = j then 1 else 0

/-- genR4Tensor() (lines 130-156): entry cnt accumulates the ijkl, ikjl and
iljk identity products and is then multiplied by 2/5. -/
def genR4Tensor : tensor4 := fun n =>
  (identity (d1 n) (d2 n) * identity (d3 n) (d4 n)
    + identity (d1 n) (d3 n) * identity (d2 n) (d4 n)
    + identity (d1 n) (d4 n) * identity (d2 n) (d3 n)) * (2 / 5)

/-- m_system_vectors (lines 190-192): the three Euclidean basis vectors. -/
def systemVectors : List Vec3 := [⟨1, 0, 0⟩, ⟨0, 1, 0⟩, ⟨0, 0, 1⟩]

/-- The same three basis vectors indexed by Fin 3 (spec-side view used to
state the claims). -/
def sysVec : Fin 3 → Vec3
  | 0 => ⟨1, 0, 0⟩
  | 1 => ⟨0, 1, 0⟩
  | 2 => ⟨0, 0, 1⟩

/-- CubaticOrderParameter::calcCubaticTensor (lines 195-211): sum the rank-4
outer-product tensors of the three rotated basis vectors, scale by 2 and
subtract the reference tensor m_gen_r4_tensor (the genR4Tensor constant
computed once at construction, line 175).  The external quaternion rotation
is the parameter rot. -/
def calcCubaticTensor (rot : Quat → Vec3 → Vec3) (orientation : Quat) : tensor4 :=
  t4sub
    (t4smul
      (systemVectors.foldl (fun acc v => t4add acc (tensor4.ofVec (rot orientation v))) t4zero)
      2)
    genR4Tensor

/-- CubaticOrderParameter::calcCubaticOrderParameter (lines 213-219):
1 - dot(global - tensor, global - tensor) / dot(tensor, tensor). -/
def calcCubaticOrderParameter (globalTensor cubaticTensor : tensor4) : ℚ :=
  1 - dot (t4sub globalTensor cubaticTensor) (t4sub globalTensor cubaticTensor)
        / dot cubaticTensor cubaticTensor

/-- Error taxonomy of the specification. -/
inductive ErrorKind
  | InvalidParameter
  | UnsupportedQueryMode
deriving DecidableEq, Repr

/-- The sanity checks of CubaticOrderParameter::CubaticOrderParameter
(lines 159-170): throw invalid_argument when m_t_initial < m_t_final, when
t_final < 1e-6, or when scale > 1 or scale < 0; otherwise construction
proceeds (no further check can fail). -/
def CubaticOrderParameter.validate (t_initial t_final scale : ℚ) : Except ErrorKind Unit :=
  if t_initial < t_final then Except.error ErrorKind.InvalidParameter
  else if t_final < 1 / 1000000 then Except.error ErrorKind.InvalidParameter
  else if 1 < scale ∨ scale < 0 then Except.error ErrorKind.InvalidParameter
  else Except.ok ()

/-- Periodic simulation box (embeds box::Box, read through its getters in
VoronoiBuffer::compute): edge lengths, tilt factors and the 2D flag. -/
structure Box where
  lx : ℚ
  ly : ℚ
  lz : ℚ
  xy : ℚ
  xz : ℚ
  yz : ℚ
  is2D : Bool
deriving DecidableEq, Repr

/-- Opaque stand-in for the iterator type produced by the supported query
signatures; the plain k-NN signature never produces one. -/
structure SpatialDataIterator where
  point : Vec3
deriving DecidableEq, Repr

/-- AABBQuery state visible to the plain k-NN entry point (AABBQuery.h):
the box and the reference points. -/
structure AABBQuery where
  box : Box
  refPoints : List Vec3

/-- AABBQuery::query(const vec3\<float\> point, unsigned int k)
(AABBQuery.h lines 57-60): the signature without rmax and scale guesses
unconditionally throws a runtime error, i.e. UnsupportedQueryMode in the
taxonomy of the spec. -/
def AABBQuery.query (a : AABBQuery) (point : Vec3) (k : ℕ) :
    Except ErrorKind SpatialDataIterator :=
  Except.error ErrorKind.UnsupportedQueryMode

/-- Spec-side Kronecker delta used to state the reference-tensor formula. -/
def kdelta (i j : Fin 3) : ℚ := if i = j then 1 else 0

theorem foldl_add_map_sum (f : Fin 81 → ℚ) (l : List (Fin 81)) (c : ℚ) :
    l.foldl (fun acc i => acc + f i) c = c + (l.map f).sum := by
  induction l generalizing c with
  | nil => simp
  | cons hd tl ih => simp [ih, add_assoc]

theorem dot_eq_sum (a b : tensor4) : dot a b = ∑ n : Fin 81, a n * b n := by
  rw [Fin.sum_univ_def, dot, foldl_add_map_sum (fun i => a i * b i), zero_add]

/-- C3: for every orientation quaternion q (and any rotation function, the
rotation living in the external math header), the cubatic tensor of
calcCubaticTensor equals, componentwise, 2 times the sum over the three
basis vectors of the rank-4 outer product of the rotated vector, minus the
fixed isotropic reference tensor whose (i,j,k,l) component is
(2/5)(delta_ij delta_kl + delta_ik delta_jl + delta_il delta_jk); the
reference tensor is the constant genR4Tensor computed once and reused. -/
theorem C3_calcCubaticTensor_formula (rot : Quat → Vec3 → Vec3) (q : Quat) (n : Fin 81) :
    calcCubaticTensor rot q n =
      2 * (∑ m : Fin 3,
            vcomp (rot q (sysVec m)) (d1 n) * vcomp (rot q (sysVec m)) (d2 n)
              * vcomp (rot q (sysVec m)) (d3 n) * vcomp (rot q (sysVec m)) (d4 n))
        - (2 / 5) * (kdelta (d1 n) (d2 n) * kdelta (d3 n) (d4 n)
            + kdelta (d1 n) (d3 n) * kdelta (d2 n) (d4 n)
            + kdelta (d1 n) (d4 n) * kdelta (d2 n) (d3 n)) := by
  simp only [calcCubaticTensor, systemVectors, List.foldl_cons, List.foldl_nil,
    t4sub, t4smul, t4add, t4zero, tensor4.ofVec, genR4Tensor, identity, kdelta,
    Fin.sum_univ_three, sysVec]
  ring

/-- C4: the scalar order parameter of calcCubaticOrderParameter equals
1 - dot(G - T, G - T) / dot(T, T) where dot is the elementwise sum of
products over the 81 components. -/
theorem C4_calcCubaticOrderParameter_formula (G T : tensor4) :
    calcCubaticOrderParameter G T =
      1 - (∑ n : Fin 81, (G n - T n) * (G n - T n)) / (∑ n : Fin 81, T n * T n) := by
  simp only [calcCubaticOrderParameter, dot_eq_sum, t4sub]

/-- C2 counterexample: the claim asserts that t_initial <= t_final fails
construction with InvalidParameter, but the code only rejects
t_initial < t_final, so t_initial = t_final = 1 (with t_final >= 1e-6 and
scale = 1/2 in (0,1)) is accepted. -/
theorem C2_counterexample :
    (1 : ℚ) ≤ 1 ∧ CubaticOrderParameter.validate 1 1 (1 / 2) = Except.ok () := by
  refine ⟨le_refl 1, ?_⟩
  norm_num [CubaticOrderParameter.validate]

/-- C2 amended: construction succeeds iff none of the strict checks fires,
i.e. iff t_initial >= t_final, t_final >= 1e-6 and 0 <= scale <= 1; in
particular t_initial = t_final, scale = 0 and scale = 1 are accepted, and
every violation is reported as InvalidParameter. -/
theorem C2_validation_characterization (ti tf sc : ℚ) :
    (CubaticOrderParameter.validate ti tf sc = Except.ok ()
      ↔ ¬ ti < tf ∧ ¬ tf < 1 / 1000000 ∧ ¬ 1 < sc ∧ ¬ sc < 0)
    ∧ (CubaticOrderParameter.validate ti tf sc = Except.error ErrorKind.InvalidParameter
      ↔ ti < tf ∨ tf < 1 / 1000000 ∨ 1 < sc ∨ sc < 0) := by
  unfold CubaticOrderParameter.validate
  by_cases h1 : ti < tf
  · rw [if_pos h1]
    exact ⟨iff_of_false (fun h => (Except.noConfusion h : False)) (fun hA => hA.1 h1),
      iff_of_true rfl (Or.inl h1)⟩
  · rw [if_neg h1]
    by_cases h2 : tf < 1 / 1000000
    · rw [if_pos h2]
      exact ⟨iff_of_false (fun h => (Except.noConfusion h : False)) (fun hA => hA.2.1 h2),
        iff_of_true rfl (Or.inr (Or.inl h2))⟩
    · rw [if_neg h2]
      by_cases h3 : 1 < sc ∨ sc < 0
      · rw [if_pos h3]
        exact ⟨iff_of_false (fun h => (Except.noConfusion h : False))
            (fun hA => h3.elim (fun hh => hA.2.2.1 hh) (fun hh => hA.2.2.2 hh)),
          iff_of_true rfl (Or.inr (Or.inr h3))⟩
      · rw [if_neg h3]
        rw [not_or] at h3
        exact ⟨iff_of_true rfl ⟨h1, h2, h3.1, h3.2⟩,
          iff_of_false (fun h => (Except.noConfusion h : False))
            (fun hB => hB.elim h1 (fun hB2 => hB2.elim h2 (fun hB3 => hB3.elim h3.1 h3.2)))⟩

/-- C8: the plain k-nearest-neighbor entry point of AABBQuery, the signature
without the radius and scale guesses, always fails with
UnsupportedQueryMode and never returns an iterator. -/
theorem C8_query_unsupported (a : AABBQuery) (point : Vec3) (k : ℕ) :
    AABBQuery.query a point k = Except.error ErrorKind.UnsupportedQueryMode
      ∧ ∀ it : SpatialDataIterator, AABBQuery.query a point k ≠ Except.ok it := by
  exact ⟨rfl, fun it h => by simp [AABBQuery.query] at h⟩

/-- Inclusive integer range a..b, embedding the C loop
for (int i = a; i <= b; i++). -/
def intRange (a b : ℤ) : List ℤ := (List.range (b + 1 - a).toNat).map fun n => a + n

/-- VoronoiBuffer::compute (VoronoiBuffer.cc lines 18-100): for every
particle and every image shell index combination, emit the translated image
point together with the particle id whenever the image lies inside the
buffer region.  The two output vectors buffer_parts and buffer_ids are
pushed in lockstep, so the embedding produces the list of pairs; the
vectors are its two projections. -/
def VoronoiBuffer.compute (box : Box) (points : List Vec3) (buff : ℚ) : List (Vec3 × ℕ) :=
  let lx := box.lx
  let ly := box.ly
  let lz := box.lz
  let xy := box.xy
  let xz := box.xz
  let yz := box.yz
  let lx_2_buff := lx / 2 + buff
  let ly_2_buff := ly / 2 + buff
  let lz_2_buff := lz / 2 + buff
  let ix : ℤ := ⌈buff / lx⌉
  let iy : ℤ := ⌈buff / ly⌉
  let iz : ℤ := ⌈buff / lz⌉
  (List.range points.length).flatMap fun particle =>
    let p := points.getD particle default
    (intRange (-ix) ix).flatMap fun i =>
      (intRange (-iy) iy).flatMap fun j =>
        if box.is2D then
          if i ≠ 0 ∨ j ≠ 0 then
            let img : Vec3 := ⟨p.x + i * lx + j * ly * xy, p.y + j * ly, 0⟩
            let xadj := img.y * xy
            if img.x < lx_2_buff + xadj ∧ img.x > -lx_2_buff + xadj ∧
                img.y < ly_2_buff ∧ img.y > -ly_2_buff
            then [(img, particle)] else []
          else []
        else
          (intRange (-iz) iz).flatMap fun k =>
            if ¬ (i = 0 ∧ j = 0 ∧ k = 0) then
              let img : Vec3 :=
                ⟨p.x + i * lx + j * ly * xy + k * lz * xz, p.y + j * ly + k * lz * yz,
                  p.z + k * lz⟩
              let xadj := img.y * xy + img.z * xz
              let yadj := img.z * yz
              if img.x < lx_2_buff + xadj ∧ img.x > -lx_2_buff + xadj ∧
                  img.y < ly_2_buff + yadj ∧ img.y > -ly_2_buff + yadj ∧
                  img.z < lz_2_buff ∧ img.z > -lz_2_buff
              then [(img, particle)] else []
            else []

theorem mem_ite_singleton {α : Type} {c : Prop} [Decidable c] {a b : α} :
    a ∈ (if c then [b] else ([] : List α)) ↔ c ∧ a = b := by
  split <;> simp_all

/-- The periodic image of point p under the lattice combination
i*a1 + j*a2 + k*a3 of the box edge vectors a1 = (lx,0,0),
a2 = (ly*xy, ly, 0), a3 = (lz*xz, lz*yz, lz). -/
def latticeImage (box : Box) (p : Vec3) (i j k : ℤ) : Vec3 :=
  ⟨p.x + i * box.lx + j * (box.ly * box.xy) + k * (box.lz * box.xz),
    p.y + j * box.ly + k * (box.lz * box.yz),
    p.z + k * box.lz⟩

/-- C9 amended: the two output vectors of VoronoiBuffer::compute have equal
length, every stored id is a valid input index below Np, and the zero image
is never emitted: every output entry arises from a not-all-zero integer
image combination (i,j,k), its x and y coordinates are those of the input
point of its id translated by i*a1 + j*a2 + k*a3, and its z coordinate is
that translation in 3D but is forced to exactly 0 when the box is 2D
(in 2D only in-plane images are enumerated, k = 0). -/
theorem C9_buffer_invariants (box : Box) (points : List Vec3) (buff : ℚ) :
    ((VoronoiBuffer.compute box points buff).map Prod.fst).length
        = ((VoronoiBuffer.compute box points buff).map Prod.snd).length
      ∧ ∀ e ∈ VoronoiBuffer.compute box points buff,
          e.2 < points.length ∧
          ∃ i j k : ℤ, ¬ (i = 0 ∧ j = 0 ∧ k = 0) ∧ (box.is2D = true → k = 0) ∧
            e.1.x = (latticeImage box (points.getD e.2 default) i j k).x ∧
            e.1.y = (latticeImage box (points.getD e.2 default) i j k).y ∧
            e.1.z = (if box.is2D then 0
              else (latticeImage box (points.getD e.2 default) i j k).z) := by
  refine ⟨by simp, ?_⟩
  intro e he
  simp only [VoronoiBuffer.compute, List.mem_flatMap, List.mem_range] at he
  obtain ⟨particle, hpart, i, hi, j, hj, he⟩ := he
  split at he
  case isTrue hb =>
    split at he
    case isTrue hij =>
      rw [mem_ite_singleton] at he
      obtain ⟨hcond, rfl⟩ := he
      refine ⟨hpart, i, j, 0, ?_, fun _ => rfl, ?_, ?_, ?_⟩
      · rintro ⟨h1, h2, -⟩
        exact hij.elim (fun hh => hh h1) (fun hh => hh h2)
      · simp only [latticeImage]
        push_cast
        ring
      · simp only [latticeImage]
        push_cast
        ring
      · simp [hb]
    case isFalse h => simp at he
  case isFalse hb =>
    rw [List.mem_flatMap] at he
    obtain ⟨k, hk, he⟩ := he
    split at he
    case isTrue hnz =>
      rw [mem_ite_singleton] at he
      obtain ⟨hcond, rfl⟩ := he
      refine ⟨hpart, i, j, k, hnz, ?_, ?_, ?_, ?_⟩
      · intro h2d
        exact absurd h2d hb
      · simp only [latticeImage]
        ring
      · simp only [latticeImage]
        ring
      · rw [if_neg hb]
        rfl
    case isFalse h => simp at he

/-- C9 counterexample: for a 2D box (lx = ly = lz = 2, no tilt) and the
single input point (-1/2, 0, 1) with buffer width 1, compute emits exactly
the buffer particle (3/2, 0, 0) with id 0, and that particle is not the
input point translated by any nonzero integer lattice combination of the
box edge vectors: the code forces the z coordinate to 0 in the 2D branch
instead of translating the input point. -/
theorem C9_counterexample :
    VoronoiBuffer.compute ⟨2, 2, 2, 0, 0, 0, true⟩ [⟨-1 / 2, 0, 1⟩] 1
        = [(⟨3 / 2, 0, 0⟩, 0)]
      ∧ ¬ ∃ i j k : ℤ, ¬ (i = 0 ∧ j = 0 ∧ k = 0) ∧
          (⟨3 / 2, 0, 0⟩ : Vec3) =
            latticeImage ⟨2, 2, 2, 0, 0, 0, true⟩ ⟨-1 / 2, 0, 1⟩ i j k := by
  constructor
  · decide
  · rintro ⟨i, j, k, -, heq⟩
    have hz := congrArg Vec3.z heq
    simp only [latticeImage] at hz
    have h2 : ((2 * k + 1 : ℤ) : ℚ) = 0 := by
      push_cast
      linarith
    have h3 : (2 * k + 1 : ℤ) = 0 := by exact_mod_cast h2
    omega

/-- C10: when the box is 2D, every buffer particle emitted by
VoronoiBuffer::compute has z coordinate exactly 0 and is produced from an
in-plane image translation (i, j) of its input point, with no z-direction
image shells enumerated. -/
theorem C10_buffer2d_inplane (box : Box) (points : List Vec3) (buff : ℚ)
    (hb : box.is2D = true) :
    ∀ e ∈ VoronoiBuffer.compute box points buff,
      e.1.z = 0 ∧
      ∃ i j : ℤ, ¬ (i = 0 ∧ j = 0) ∧
        e.1.x = (points.getD e.2 default).x + i * box.lx + j * (box.ly * box.xy) ∧
        e.1.y = (points.getD e.2 default).y + j * box.ly := by
  intro e he
  simp only [VoronoiBuffer.compute, List.mem_flatMap, List.mem_range] at he
  obtain ⟨particle, hpart, i, hi, j, hj, he⟩ := he
  rw [if_pos hb] at he
  split at he
  case isTrue hij =>
    rw [mem_ite_singleton] at he
    obtain ⟨hcond, rfl⟩ := he
    refine ⟨rfl, i, j, ?_, ?_, ?_⟩
    · rintro ⟨h1, h2⟩
      exact hij.elim (fun hh => hh h1) (fun hh => hh h2)
    · push_cast
      ring
    · push_cast
      ring
  case isFalse h => simp at he

/-- Witness for C10 at a concrete 2D input: the emitted buffer particle
(3/2, 0, 0) of id 0 has z = 0 and is the in-plane image (i, j) = (1, 0) of
the input point in x and y. -/
theorem C10_witness :
    ((⟨3 / 2, 0, 0⟩, 0) : Vec3 × ℕ) ∈
        VoronoiBuffer.compute ⟨2, 2, 2, 0, 0, 0, true⟩ [⟨-1 / 2, 0, 1⟩] 1
      ∧ ((⟨3 / 2, 0, 0⟩ : Vec3).z = 0 ∧
          ∃ i j : ℤ, ¬ (i = 0 ∧ j = 0) ∧
            (⟨3 / 2, 0, 0⟩ : Vec3).x
                = (([⟨-1 / 2, 0, 1⟩] : List Vec3).getD
                    (((⟨3 / 2, 0, 0⟩, 0) : Vec3 × ℕ)).2 default).x + i * 2 + j * (2 * 0) ∧
            (⟨3 / 2, 0, 0⟩ : Vec3).y
                = (([⟨-1 / 2, 0, 1⟩] : List Vec3).getD
                    (((⟨3 / 2, 0, 0⟩, 0) : Vec3 × ℕ)).2 default).y + j * 2) :=
  ⟨by decide,
    C10_buffer2d_inplane ⟨2, 2, 2, 0, 0, 0, true⟩ [⟨-1 / 2, 0, 1⟩] 1 rfl
      (⟨3 / 2, 0, 0⟩, 0) (by decide)⟩

/-- Modelled from the spec: the external Saru random generator (not under
src/) is a deterministic stream fixed by its three construction seeds and
consumed sequentially; the state records the seed triple and how many
draws were taken. -/
structure Saru where
  key : ℕ × ℕ × ℕ
  ctr : ℕ
deriving DecidableEq, Repr

/-- Saru(seed1, seed2, seed3): a fresh stream positioned at its first
draw. -/
def Saru.init (seed1 seed2 seed3 : ℕ) : Saru := ⟨(seed1, seed2, seed3), 0⟩

/-- Environment bundling everything the C++ translation unit takes from
outside src/: the Saru uniform stream u (the value in [0,1) of the n-th
draw of the stream keyed by the seed triple), the float transcendental
functions, the value of M_PI, and the quaternion rotation of the external
vector-math header. -/
structure Env where
  u : ℕ × ℕ × ℕ → ℕ → ℚ
  rcos : ℚ → ℚ
  rsin : ℚ → ℚ
  racos : ℚ → ℚ
  rsqrt : ℚ → ℚ
  rexp : ℚ → ℚ
  pi : ℚ
  rot : Quat → Vec3 → Vec3

/-- Modelled from the spec: saru.s\<float\>(lo, hi) maps the next uniform
draw affinely into [lo, hi) and advances the stream. -/
def saruS (env : Env) (st : Saru) (lo hi : ℚ) : ℚ × Saru :=
  (lo + (hi - lo) * env.u st.key st.ctr, ⟨st.key, st.ctr + 1⟩)

/-- Modelled from the spec: quat\<float\>::fromAxisAngle of the external
math header, cos(theta/2) + sin(theta/2) * axis. -/
def fromAxisAngle (env : Env) (axis : Vec3) (theta : ℚ) : Quat :=
  ⟨env.rcos (theta / 2), smul3 (env.rsin (theta / 2)) axis⟩

/-- CubaticOrderParameter::calcRandomQuaternion (lines 221-230): draw
theta in [0, 2 pi), phi = acos(2 u - 1), normalize the spherical axis,
draw the angle scaled by angle_multiplier, and build the quaternion;
exactly three stream draws, in this order. -/
def calcRandomQuaternion (env : Env) (saru : Saru) (angle_multiplier : ℚ) : Quat × Saru :=
  let ts := saruS env saru 0 (2 * env.pi)
  let theta := ts.1
  let us := saruS env ts.2 0 1
  let phi := env.racos (2 * us.1 - 1)
  let axis : Vec3 := ⟨env.rcos theta * env.rsin phi, env.rsin theta * env.rsin phi, env.rcos phi⟩
  let axis_norm := env.rsqrt (dot3 axis axis)
  let axis2 := divv3 axis axis_norm
  let as0 := saruS env us.2 0 1
  let angle := angle_multiplier * as0.1
  (fromAxisAngle env axis2 angle, as0.2)

/-- State of one replicate inside the simulated annealing loop of
CubaticOrderParameter::compute (lines 331-377): the current accepted
cubatic tensor, orientation and order parameter, the current temperature,
the loop counter, and the replicate's Saru stream. -/
structure AnnealState where
  tensor : tensor4
  orientation : Quat
  op : ℚ
  t : ℚ
  loopCount : ℕ
  saru : Saru
deriving DecidableEq

/-- One iteration of the annealing while loop (lines 345-377): increment
the loop counter, propose a perturbed orientation (angle multiplier 0.1
composed onto the current one), evaluate its tensor and order parameter,
accept an improvement unconditionally, otherwise accept iff the Boltzmann
factor exp(-(current - proposed)/t) is at least a fresh uniform draw;
cooling t by scale happens only on acceptance (the reject branch hits the
continue statement, skipping it). -/
def annealBody (env : Env) (globalTensor : tensor4) (scale : ℚ) (st : AnnealState) :
    AnnealState :=
  let dqs := calcRandomQuaternion env st.saru (1 / 10)
  let current_orientation := qmul dqs.1 st.orientation
  let new_cubatic_tensor := calcCubaticTensor env.rot current_orientation
  let new_order_parameter := calcCubaticOrderParameter globalTensor new_cubatic_tensor
  if new_order_parameter > st.op then
    ⟨new_cubatic_tensor, current_orientation, new_order_parameter,
      st.t * scale, st.loopCount + 1, dqs.2⟩
  else
    let tvs := saruS env dqs.2 0 1
    let boltzmann_factor := env.rexp (-(st.op - new_order_parameter) / st.t)
    if boltzmann_factor ≥ tvs.1 then
      ⟨new_cubatic_tensor, current_orientation, new_order_parameter,
        st.t * scale, st.loopCount + 1, tvs.2⟩
    else
      { st with loopCount := st.loopCount + 1, saru := tvs.2 }

/-- The annealing while loop (line 345): while t_current > t_final and
loop_count < 10000, run the body.  The fuel argument is an embedding
artifact: called with fuel greater than 10000 minus the starting counter
(runReplicate uses 10001 with counter 0), it never binds before the
codepath's own loop_count bound does, so the function is exactly the C++
while loop. -/
def annealLoop (env : Env) (globalTensor : tensor4) (scale t_final : ℚ) :
    ℕ → AnnealState → AnnealState
  | 0, st => st
  | fuel + 1, st =>
    if t_final < st.t ∧ st.loopCount < 10000 then
      annealLoop env globalTensor scale t_final fuel (annealBody env globalTensor scale st)
    else st

/-- Final per-replicate values stored at lines 378-383: the accepted
cubatic tensor, orientation and scalar order parameter. -/
structure RepResult where
  tensor : tensor4
  orientation : Quat
  op : ℚ
deriving DecidableEq

instance : Inhabited RepResult := ⟨⟨t4zero, ⟨1, ⟨0, 0, 0⟩⟩, 0⟩⟩

/-- One replicate of the annealing search (loop body of lines 329-384):
draw a random initial orientation, compute its tensor and order parameter,
run the annealing loop from t_initial with the loop counter at zero, and
return the final values together with the Saru state, which the enclosing
block reuses for its next replicate. -/
def runReplicate (env : Env) (globalTensor : tensor4) (t_initial t_final scale : ℚ)
    (saru : Saru) : RepResult × Saru :=
  let qs := calcRandomQuaternion env saru 1
  let cubatic_tensor := calcCubaticTensor env.rot qs.1
  let cubatic_order_parameter := calcCubaticOrderParameter globalTensor cubatic_tensor
  let final := annealLoop env globalTensor scale t_final 10001
    ⟨cubatic_tensor, qs.1, cubatic_order_parameter, t_initial, 0, qs.2⟩
  (⟨final.tensor, final.orientation, final.op⟩, final.saru)

/-- The replicates of one scheduled block, threading the block's single
Saru stream from one replicate to the next (the lambda of lines 321-385
creates one Saru per blocked_range and runs every replicate of the range
with it). -/
def runReplicates (env : Env) (globalTensor : tensor4) (t_initial t_final scale : ℚ) :
    ℕ → Saru → List RepResult
  | 0, _ => []
  | len + 1, saru =>
    let rs := runReplicate env globalTensor t_initial t_final scale saru
    rs.1 :: runReplicates env globalTensor t_initial t_final scale len rs.2

/-- One scheduled block [start, start + len) of the parallel_for over
replicates (lines 321-325): its Saru is seeded (m_seed, block start,
0xffaabb), where the block start is whatever range begin the scheduler
chose, and is shared by every replicate of the block. -/
def runBlock (env : Env) (globalTensor : tensor4) (t_initial t_final scale : ℚ)
    (seed start len : ℕ) : List RepResult :=
  runReplicates env globalTensor t_initial t_final scale len
    (Saru.init seed start 0xffaabb)

/-- The replicate phase of CubaticOrderParameter::compute under an explicit
scheduler partition of the replicate range into consecutive blocks
(start, len): the per-replicate results in index order. -/
def computeReplicates (env : Env) (globalTensor : tensor4) (t_initial t_final scale : ℚ)
    (seed : ℕ) (partition : List (ℕ × ℕ)) : List RepResult :=
  partition.flatMap fun b =>
    runBlock env globalTensor t_initial t_final scale seed b.1 b.2

/-- The selection loop of lines 387-397: scan replicates 1..n-1, replacing
the running best index and value only on a strict improvement. -/
def selectBest (ops : List ℚ) : ℕ × ℚ :=
  (List.range' 1 (ops.length - 1)).foldl
    (fun acc i => if ops.getD i 0 > acc.2 then (i, ops.getD i 0) else acc)
    (0, ops.getD 0 0)

/-- Lines 399-405: the stored global result is the chosen replicate's. -/
def computeResult (env : Env) (globalTensor : tensor4) (t_initial t_final scale : ℚ)
    (seed : ℕ) (partition : List (ℕ × ℕ)) : RepResult :=
  let rs := computeReplicates env globalTensor t_initial t_final scale seed partition
  rs.getD (selectBest (rs.map RepResult.op)).1 default

theorem annealBody_loopCount (env : Env) (g : tensor4) (scale : ℚ) (st : AnnealState) :
    (annealBody env g scale st).loopCount = st.loopCount + 1 := by
  simp only [annealBody]
  split
  · rfl
  · split <;> rfl

theorem annealLoop_loopCount_le (env : Env) (g : tensor4) (scale tf : ℚ) :
    ∀ fuel st, st.loopCount ≤ 10000 →
      (annealLoop env g scale tf fuel st).loopCount ≤ 10000 := by
  intro fuel
  induction fuel with
  | zero => intro st h; exact h
  | succ n ih =>
    intro st h
    rw [annealLoop]
    split
    case isTrue hc => exact ih _ (by rw [annealBody_loopCount]; omega)
    case isFalse hc => exact h

theorem annealLoop_exit (env : Env) (g : tensor4) (scale tf : ℚ) :
    ∀ fuel st, 10000 < fuel + st.loopCount →
      ¬ (tf < (annealLoop env g scale tf fuel st).t ∧
          (annealLoop env g scale tf fuel st).loopCount < 10000) := by
  intro fuel
  induction fuel with
  | zero =>
    intro st h
    simp only [annealLoop]
    rintro ⟨-, h2⟩
    omega
  | succ n ih =>
    intro st h
    rw [annealLoop]
    split
    case isTrue hc =>
      exact ih _ (by rw [annealBody_loopCount]; omega)
    case isFalse hc => exact hc

theorem annealLoop_stops (env : Env) (g : tensor4) (scale tf : ℚ) (fuel : ℕ)
    (s : AnnealState) (h : s.t ≤ tf) : annealLoop env g scale tf fuel s = s := by
  cases fuel with
  | zero => rfl
  | succ n =>
    rw [annealLoop, if_neg]
    rintro ⟨h1, -⟩
    exact absurd h (not_le.mpr h1)

/-- C5: for valid construction parameters the annealing loop terminates:
starting with the loop counter at zero it performs at most 10000 proposal
iterations, on return either the temperature has dropped to or below
t_final or exactly 10000 iterations ran, and from any state whose
temperature is already at or below t_final the loop stops immediately. -/
theorem C5_anneal_terminates (env : Env) (g : tensor4) (t_initial t_final scale : ℚ)
    (hvalid : t_final < t_initial) (hs0 : 0 < scale) (hs1 : scale < 1)
    (st : AnnealState) (hcount : st.loopCount = 0) :
    (annealLoop env g scale t_final 10001 st).loopCount ≤ 10000 ∧
    ((annealLoop env g scale t_final 10001 st).t ≤ t_final ∨
      (annealLoop env g scale t_final 10001 st).loopCount = 10000) ∧
    (∀ s : AnnealState, s.t ≤ t_final → annealLoop env g scale t_final 10001 s = s) := by
  have h1 := annealLoop_loopCount_le env g scale t_final 10001 st (by omega)
  have h2 := annealLoop_exit env g scale t_final 10001 st (by omega)
  refine ⟨h1, ?_, fun s hs => annealLoop_stops env g scale t_final 10001 s hs⟩
  by_cases hts : (annealLoop env g scale t_final 10001 st).t ≤ t_final
  · exact Or.inl hts
  · have h4 : ¬ (annealLoop env g scale t_final 10001 st).loopCount < 10000 :=
      fun hlt => h2 ⟨not_le.mp hts, hlt⟩
    right
    omega

/-- Concrete accepting environment for witnesses and the C1 counterexample:
identity transcendentals, Boltzmann factor constantly 1 (every Metropolis
test passes, so each replicate's annealing loop accepts its first proposal
and cools past t_final immediately), rotation discarding the orientation,
and a stream whose draws are 0 before draw index 7 and 1/2 from index 7
on. -/
def envA : Env :=
  ⟨fun _ n => if 7 ≤ n then 1 / 2 else 0, id, id, id, id, fun _ => 1, 1 / 2, fun _ v => v⟩

/-- Concrete rejecting environment for the C6 witness: constant 1/2 stream
and Boltzmann factor constantly 0, so the Metropolis test always fails. -/
def envW : Env :=
  ⟨fun _ _ => 1 / 2, id, id, id, id, fun _ => 0, 1 / 2, fun _ v => v⟩

/-- Witness for C5 at a concrete valid instantiation. -/
theorem C5_witness :
    ((1 : ℚ) / 2 < 1 ∧ (0 : ℚ) < 1 / 4 ∧ (1 : ℚ) / 4 < 1) ∧
    ((annealLoop envA t4zero (1 / 4) (1 / 2) 10001
        ⟨t4zero, ⟨1, ⟨0, 0, 0⟩⟩, 0, 1, 0, Saru.init 0 0 0xffaabb⟩).loopCount ≤ 10000 ∧
      ((annealLoop envA t4zero (1 / 4) (1 / 2) 10001
          ⟨t4zero, ⟨1, ⟨0, 0, 0⟩⟩, 0, 1, 0, Saru.init 0 0 0xffaabb⟩).t ≤ 1 / 2 ∨
        (annealLoop envA t4zero (1 / 4) (1 / 2) 10001
          ⟨t4zero, ⟨1, ⟨0, 0, 0⟩⟩, 0, 1, 0, Saru.init 0 0 0xffaabb⟩).loopCount = 10000) ∧
      (∀ s : AnnealState, s.t ≤ 1 / 2 →
        annealLoop envA t4zero (1 / 4) (1 / 2) 10001 s = s)) :=
  ⟨⟨by norm_num, by norm_num, by norm_num⟩,
    C5_anneal_terminates envA t4zero 1 (1 / 2) (1 / 4) (by norm_num) (by norm_num)
      (by norm_num) ⟨t4zero, ⟨1, ⟨0, 0, 0⟩⟩, 0, 1, 0, Saru.init 0 0 0xffaabb⟩ rfl⟩

/-- C6: one annealing step follows the Metropolis criterion of the code: a
proposal whose order parameter strictly exceeds the current one is always
accepted (tensor, orientation and order parameter updated, temperature
cooled by scale); a non-improving proposal is accepted, with the same
updates, exactly when exp(-(current - proposed)/t) is at least the fresh
uniform draw; otherwise only the loop counter and the stream advance - the
state and the temperature are unchanged for that step. -/
theorem C6_metropolis_acceptance (env : Env) (g : tensor4) (scale : ℚ) (st : AnnealState)
    (dq : Quat) (s1 : Saru)
    (hdq : calcRandomQuaternion env st.saru (1 / 10) = (dq, s1))
    (newT : tensor4) (hT : newT = calcCubaticTensor env.rot (qmul dq st.orientation))
    (newOp : ℚ) (hOp : newOp = calcCubaticOrderParameter g newT)
    (test : ℚ) (s2 : Saru) (htest : saruS env s1 0 1 = (test, s2)) :
    (newOp > st.op →
      annealBody env g scale st =
        ⟨newT, qmul dq st.orientation, newOp, st.t * scale, st.loopCount + 1, s1⟩) ∧
    (¬ newOp > st.op → env.rexp (-(st.op - newOp) / st.t) ≥ test →
      annealBody env g scale st =
        ⟨newT, qmul dq st.orientation, newOp, st.t * scale, st.loopCount + 1, s2⟩) ∧
    (¬ newOp > st.op → ¬ env.rexp (-(st.op - newOp) / st.t) ≥ test →
      annealBody env g scale st = { st with loopCount := st.loopCount + 1, saru := s2 }) := by
  subst hT
  subst hOp
  simp only [annealBody, hdq, htest]
  refine ⟨fun h => ?_, fun h hb => ?_, fun h hb => ?_⟩
  · rw [if_pos h]
  · rw [if_neg h, if_pos hb]
  · rw [if_neg h, if_neg hb]

set_option maxRecDepth 100000 in
/-- Witness for C6 at a concrete rejecting step: with envW the proposal
does not improve (equal order parameters) and the Boltzmann factor 0 is
below the fresh draw 1/2, so the step only advances the counter and the
stream. -/
theorem C6_witness :
    annealBody envW t4zero (1 / 4)
        ⟨t4zero, ⟨1, ⟨0, 0, 0⟩⟩, 0, 1, 0, Saru.init 0 0 0xffaabb⟩
      = { (⟨t4zero, ⟨1, ⟨0, 0, 0⟩⟩, 0, 1, 0, Saru.init 0 0 0xffaabb⟩ : AnnealState) with
          loopCount := 1, saru := ⟨(0, 0, 0xffaabb), 4⟩ } :=
  (C6_metropolis_acceptance envW t4zero (1 / 4)
      ⟨t4zero, ⟨1, ⟨0, 0, 0⟩⟩, 0, 1, 0, Saru.init 0 0 0xffaabb⟩
      _ _ rfl _ rfl _ rfl _ _ rfl).2.2 (by decide) (by decide)

theorem getD_map_op :
    ∀ (rs : List RepResult) (j : ℕ), j < rs.length →
      (rs.map RepResult.op).getD j 0 = (rs.getD j default).op := by
  intro rs
  induction rs with
  | nil => intro j hj; simp at hj
  | cons hd tl ih =>
    intro j hj
    cases j with
    | zero => rfl
    | succ m => exact ih m (by simpa using hj)

theorem selectBest_fold_invariant (ops : List ℚ) :
    ∀ (m a : ℕ) (acc : ℕ × ℚ),
      acc.1 < a →
      acc.2 = ops.getD acc.1 0 →
      (∀ j < a, ops.getD j 0 ≤ acc.2) →
      (∀ j < acc.1, ops.getD j 0 < acc.2) →
      ((List.range' a m).foldl
          (fun acc2 i => if ops.getD i 0 > acc2.2 then (i, ops.getD i 0) else acc2)
          acc).1 < a + m ∧
      ((List.range' a m).foldl
          (fun acc2 i => if ops.getD i 0 > acc2.2 then (i, ops.getD i 0) else acc2)
          acc).2 = ops.getD ((List.range' a m).foldl
          (fun acc2 i => if ops.getD i 0 > acc2.2 then (i, ops.getD i 0) else acc2)
          acc).1 0 ∧
      (∀ j < a + m, ops.getD j 0 ≤ ((List.range' a m).foldl
          (fun acc2 i => if ops.getD i 0 > acc2.2 then (i, ops.getD i 0) else acc2)
          acc).2) ∧
      (∀ j < ((List.range' a m).foldl
          (fun acc2 i => if ops.getD i 0 > acc2.2 then (i, ops.getD i 0) else acc2)
          acc).1, ops.getD j 0 < ((List.range' a m).foldl
          (fun acc2 i => if ops.getD i 0 > acc2.2 then (i, ops.getD i 0) else acc2)
          acc).2) := by
  intro m
  induction m with
  | zero =>
    intro a acc h1 h2 h3 h4
    rw [show List.range' a 0 = [] from rfl, List.foldl_nil]
    exact ⟨by omega, h2, fun j hj => h3 j (by omega), h4⟩
  | succ n ih =>
    intro a acc h1 h2 h3 h4
    rw [List.range'_succ, List.foldl_cons]
    have hsum : a + (n + 1) = (a + 1) + n := by omega
    rw [hsum]
    by_cases hgt : ops.getD a 0 > acc.2
    · rw [if_pos hgt]
      refine ih (a + 1) (a, ops.getD a 0) (by omega) rfl ?_ ?_
      · intro j hj
        rcases Nat.lt_succ_iff_lt_or_eq.mp hj with hj2 | hj2
        · exact le_of_lt (lt_of_le_of_lt (h3 j hj2) hgt)
        · subst hj2
          exact le_refl _
      · intro j hj
        exact lt_of_le_of_lt (h3 j (by omega)) hgt
    · rw [if_neg hgt]
      refine ih (a + 1) acc (by omega) h2 ?_ h4
      intro j hj
      rcases Nat.lt_succ_iff_lt_or_eq.mp hj with hj2 | hj2
      · exact h3 j hj2
      · subst hj2
        exact not_lt.mp hgt

theorem selectBest_spec (ops : List ℚ) (h : ops ≠ []) :
    (selectBest ops).1 < ops.length ∧
    (selectBest ops).2 = ops.getD (selectBest ops).1 0 ∧
    (∀ j < ops.length, ops.getD j 0 ≤ (selectBest ops).2) ∧
    (∀ j < (selectBest ops).1, ops.getD j 0 < (selectBest ops).2) := by
  have hlen : 1 ≤ ops.length := List.length_pos.mpr h
  have hinv := selectBest_fold_invariant ops (ops.length - 1) 1 (0, ops.getD 0 0)
    (by omega) rfl
    (fun j hj => by
      have hj0 : j = 0 := by omega
      subst hj0
      exact le_refl _)
    (fun j hj => absurd hj (Nat.not_lt_zero j))
  have hsum : 1 + (ops.length - 1) = ops.length := by omega
  rw [hsum] at hinv
  exact hinv

/-- C7: the stored global result (lines 399-405) is the final state of the
replicate whose final order parameter is maximal, ties broken in favor of
the lowest replicate index: the chosen index is valid, no replicate beats
it, and every replicate before it is strictly worse. -/
theorem C7_best_replicate (env : Env) (g : tensor4) (t_initial t_final scale : ℚ)
    (seed : ℕ) (partition : List (ℕ × ℕ))
    (h : computeReplicates env g t_initial t_final scale seed partition ≠ []) :
    computeResult env g t_initial t_final scale seed partition
        = (computeReplicates env g t_initial t_final scale seed partition).getD
            (selectBest ((computeReplicates env g t_initial t_final scale seed
              partition).map RepResult.op)).1 default ∧
    (selectBest ((computeReplicates env g t_initial t_final scale seed
        partition).map RepResult.op)).1
      < (computeReplicates env g t_initial t_final scale seed partition).length ∧
    (∀ j < (computeReplicates env g t_initial t_final scale seed partition).length,
      ((computeReplicates env g t_initial t_final scale seed partition).getD j default).op
        ≤ ((computeReplicates env g t_initial t_final scale seed partition).getD
            (selectBest ((computeReplicates env g t_initial t_final scale seed
              partition).map RepResult.op)).1 default).op) ∧
    (∀ j < (selectBest ((computeReplicates env g t_initial t_final scale seed
        partition).map RepResult.op)).1,
      ((computeReplicates env g t_initial t_final scale seed partition).getD j default).op
        < ((computeReplicates env g t_initial t_final scale seed partition).getD
            (selectBest ((computeReplicates env g t_initial t_final scale seed
              partition).map RepResult.op)).1 default).op) := by
  have hmapne : (computeReplicates env g t_initial t_final scale seed
      partition).map RepResult.op ≠ [] := by
    intro hm
    exact h (List.map_eq_nil_iff.mp hm)
  have hspec := selectBest_spec
    ((computeReplicates env g t_initial t_final scale seed partition).map RepResult.op)
    hmapne
  rw [List.length_map] at hspec
  obtain ⟨hb1, hb2, hb3, hb4⟩ := hspec
  refine ⟨rfl, hb1, ?_, ?_⟩
  · intro j hj
    have hthis := hb3 j hj
    rw [getD_map_op _ j hj] at hthis
    have hb2m := hb2
    rw [getD_map_op _ _ hb1] at hb2m
    rw [hb2m] at hthis
    exact hthis
  · intro j hj
    have hjlen : j < (computeReplicates env g t_initial t_final scale seed
        partition).length := lt_trans hj hb1
    have hthis := hb4 j hj
    rw [getD_map_op _ j hjlen] at hthis
    have hb2m := hb2
    rw [getD_map_op _ _ hb1] at hb2m
    rw [hb2m] at hthis
    exact hthis

/-- Witness for C7 with one replicate under a concrete environment. -/
theorem C7_witness :
    computeResult envA t4zero 1 (1 / 2) (1 / 4) 0 [(0, 1)]
        = (computeReplicates envA t4zero 1 (1 / 2) (1 / 4) 0 [(0, 1)]).getD
            (selectBest ((computeReplicates envA t4zero 1 (1 / 2) (1 / 4) 0
              [(0, 1)]).map RepResult.op)).1 default ∧
    (selectBest ((computeReplicates envA t4zero 1 (1 / 2) (1 / 4) 0
        [(0, 1)]).map RepResult.op)).1
      < (computeReplicates envA t4zero 1 (1 / 2) (1 / 4) 0 [(0, 1)]).length ∧
    (∀ j < (computeReplicates envA t4zero 1 (1 / 2) (1 / 4) 0 [(0, 1)]).length,
      ((computeReplicates envA t4zero 1 (1 / 2) (1 / 4) 0 [(0, 1)]).getD j default).op
        ≤ ((computeReplicates envA t4zero 1 (1 / 2) (1 / 4) 0 [(0, 1)]).getD
            (selectBest ((computeReplicates envA t4zero 1 (1 / 2) (1 / 4) 0
              [(0, 1)]).map RepResult.op)).1 default).op) ∧
    (∀ j < (selectBest ((computeReplicates envA t4zero 1 (1 / 2) (1 / 4) 0
        [(0, 1)]).map RepResult.op)).1,
      ((computeReplicates envA t4zero 1 (1 / 2) (1 / 4) 0 [(0, 1)]).getD j default).op
        < ((computeReplicates envA t4zero 1 (1 / 2) (1 / 4) 0 [(0, 1)]).getD
            (selectBest ((computeReplicates envA t4zero 1 (1 / 2) (1 / 4) 0
              [(0, 1)]).map RepResult.op)).1 default).op) :=
  C7_best_replicate envA t4zero 1 (1 / 2) (1 / 4) 0 [(0, 1)]
    (by simp [computeReplicates, runBlock, runReplicates])

theorem calcRandomQuaternion_key (env : Env) (st : Saru) (m : ℚ) :
    (calcRandomQuaternion env st m).2 = ⟨st.key, st.ctr + 1 + 1 + 1⟩ := rfl

theorem calcRandomQuaternion_congr (env : Env) (u2 : ℕ × ℕ × ℕ → ℕ → ℚ)
    (st : Saru) (h : ∀ n, env.u st.key n = u2 st.key n) (m : ℚ) :
    calcRandomQuaternion { env with u := u2 } st m = calcRandomQuaternion env st m := by
  simp only [calcRandomQuaternion, saruS, fromAxisAngle]
  rw [← h st.ctr, ← h (st.ctr + 1), ← h (st.ctr + 1 + 1)]

theorem annealBody_key (env : Env) (g : tensor4) (scale : ℚ) (st : AnnealState) :
    (annealBody env g scale st).saru.key = st.saru.key := by
  simp only [annealBody, saruS, calcRandomQuaternion_key]
  split
  · rfl
  · split <;> rfl

theorem annealBody_congr (env : Env) (u2 : ℕ × ℕ × ℕ → ℕ → ℚ) (g : tensor4)
    (scale : ℚ) (st : AnnealState)
    (h : ∀ n, env.u st.saru.key n = u2 st.saru.key n) :
    annealBody { env with u := u2 } g scale st = annealBody env g scale st := by
  simp only [annealBody, saruS, calcRandomQuaternion_key]
  rw [calcRandomQuaternion_congr env u2 st.saru h]
  rw [← h (st.saru.ctr + 1 + 1 + 1)]

theorem annealLoop_key (env : Env) (g : tensor4) (scale tf : ℚ) :
    ∀ fuel st, (annealLoop env g scale tf fuel st).saru.key = st.saru.key := by
  intro fuel
  induction fuel with
  | zero => intro st; rfl
  | succ n ih =>
    intro st
    rw [annealLoop]
    split
    · rw [ih, annealBody_key]
    · rfl

theorem annealLoop_congr (env : Env) (u2 : ℕ × ℕ × ℕ → ℕ → ℚ) (g : tensor4)
    (scale tf : ℚ) (key : ℕ × ℕ × ℕ) (h : ∀ n, env.u key n = u2 key n) :
    ∀ fuel st, st.saru.key = key →
      annealLoop { env with u := u2 } g scale tf fuel st
        = annealLoop env g scale tf fuel st := by
  intro fuel
  induction fuel with
  | zero => intro st hk; rfl
  | succ n ih =>
    intro st hk
    rw [annealLoop, annealLoop]
    by_cases hc : tf < st.t ∧ st.loopCount < 10000
    · rw [if_pos hc, if_pos hc]
      rw [annealBody_congr env u2 g scale st (by intro n2; rw [hk]; exact h n2)]
      exact ih _ (by rw [annealBody_key, hk])
    · rw [if_neg hc, if_neg hc]

theorem runReplicate_key (env : Env) (g : tensor4) (ti tf sc : ℚ) (saru : Saru) :
    ((runReplicate env g ti tf sc saru).2).key = saru.key := by
  simp only [runReplicate]
  rw [annealLoop_key]
  rfl

theorem runReplicate_congr (env : Env) (u2 : ℕ × ℕ × ℕ → ℕ → ℚ) (g : tensor4)
    (ti tf sc : ℚ) (saru : Saru) (h : ∀ n, env.u saru.key n = u2 saru.key n) :
    runReplicate { env with u := u2 } g ti tf sc saru
      = runReplicate env g ti tf sc saru := by
  unfold runReplicate
  dsimp only
  rw [calcRandomQuaternion_congr env u2 saru h]
  rw [annealLoop_congr env u2 g sc tf saru.key h 10001
    ⟨calcCubaticTensor env.rot (calcRandomQuaternion env saru 1).1,
      (calcRandomQuaternion env saru 1).1,
      calcCubaticOrderParameter g
        (calcCubaticTensor env.rot (calcRandomQuaternion env saru 1).1),
      ti, 0, (calcRandomQuaternion env saru 1).2⟩
    rfl]

theorem runReplicates_congr (env : Env) (u2 : ℕ × ℕ × ℕ → ℕ → ℚ) (g : tensor4)
    (ti tf sc : ℚ) (key : ℕ × ℕ × ℕ) (h : ∀ n, env.u key n = u2 key n) :
    ∀ len saru, saru.key = key →
      runReplicates { env with u := u2 } g ti tf sc len saru
        = runReplicates env g ti tf sc len saru := by
  intro len
  induction len with
  | zero => intro saru hk; rfl
  | succ n ih =>
    intro saru hk
    simp only [runReplicates]
    rw [runReplicate_congr env u2 g ti tf sc saru (by intro n2; rw [hk]; exact h n2)]
    rw [ih _ (by rw [runReplicate_key, hk])]

set_option maxHeartbeats 2000000 in
/-- C1 amended: for a fixed scheduler partition the replicate phase is a
deterministic function of the seed and the inputs: it reads the random
generator only through the streams seeded (seed, block start, 0xffaabb),
one shared stream per scheduled block of replicates (lines 321-325 seed one
Saru per blocked_range from the range's begin and reuse it for every
replicate of the range).  Two runs agreeing on those streams produce
identical results. -/
theorem C1_determinism_blockwise (env : Env) (u2 : ℕ × ℕ × ℕ → ℕ → ℚ) (g : tensor4)
    (t_initial t_final scale : ℚ) (seed : ℕ) (partition : List (ℕ × ℕ))
    (h : ∀ b ∈ partition, ∀ n,
      env.u (seed, b.1, 0xffaabb) n = u2 (seed, b.1, 0xffaabb) n) :
    computeReplicates { env with u := u2 } g t_initial t_final scale seed partition
      = computeReplicates env g t_initial t_final scale seed partition := by
  induction partition with
  | nil => simp only [computeReplicates, List.flatMap_nil]
  | cons b tl ih =>
    simp only [computeReplicates, List.flatMap_cons] at ih ⊢
    rw [runBlock, runBlock]
    rw [runReplicates_congr env u2 g t_initial t_final scale (seed, b.1, 0xffaabb)
      (h b (List.mem_cons_self b tl)) b.2 (Saru.init seed b.1 0xffaabb) rfl]
    rw [ih (fun b2 hb2 n => h b2 (List.mem_cons_of_mem b hb2) n)]

set_option maxHeartbeats 4000000 in
/-- Witness for C1 at a concrete instantiation: a second stream that
differs from envA's only on streams whose middle seed is 5 (never a block
start here) leaves the replicate phase unchanged. -/
theorem C1_determinism_witness :
    computeReplicates
        { envA with u := fun k n => if k.2.1 = 5 then 1 else envA.u k n }
        t4zero 1 (1 / 2) (1 / 4) 0 [(0, 2)]
      = computeReplicates envA t4zero 1 (1 / 2) (1 / 4) 0 [(0, 2)] :=
  C1_determinism_blockwise envA (fun k n => if k.2.1 = 5 then 1 else envA.u k n)
    t4zero 1 (1 / 2) (1 / 4) 0 [(0, 2)]
    (by
      intro b hb n
      have hb2 : b = (0, 2) := by simpa using hb
      subst hb2
      norm_num)

set_option maxRecDepth 1000000 in
set_option maxHeartbeats 8000000 in
/-- C1 counterexample: with identical seed, inputs and construction
parameters, replicate 1's result depends on how the scheduler partitioned
the replicate range: under the single block [0,2) it continues block 0's
stream (seeded (0,0,0xffaabb)) after replicate 0's seven draws, while under
the partition [0,1), [1,2) it starts the fresh stream seeded
(0,1,0xffaabb); with the concrete environment envA the two final
orientations differ, so replicate i does not draw from a stream seeded by
its own replicate index independently of partitioning. -/
theorem C1_counterexample :
    ((computeReplicates envA t4zero 1 (1 / 2) (1 / 4) 0 [(0, 2)]).getD 1
        default).orientation ≠
      ((computeReplicates envA t4zero 1 (1 / 2) (1 / 4) 0
          [(0, 1), (1, 1)]).getD 1 default).orientation := by
  decide
